import Mathlib

/-!
Verification development for the msgraph-cli terminal dashboard.

The program is a Go terminal UI over the Microsoft Graph REST client.
This file gives a shallow embedding of the parts of the program that the
checked properties speak about:

* the two webhook HTTP handlers (`App.handleWebhook` in webhook..go and
  `WebhookServer.handleWebhook` in graphhelper.go),
* the notification aggregator loop (`processWebhookUpdates`),
* the error handling of the directory/subscription client operations,
* the startup sequence of `main` and its environment-variable checks,
* the context deadlines attached to outbound calls,
* the room cache and `GetRoom`,
* `ConvertToLocalTime`, which is Go
  `time.Parse` with layout 2006-01-02T15:04:05.999999999 followed by
  `Local()` (the latter preserves the parsed instant).

Machine text: colored panel strings are kept verbatim; the hour-minute
timestamps that `time.Now().Format` would write are abstracted as a `now`
parameter since they are wall-clock inputs, not computation.
-/

/-! ## Webhook HTTP handlers

A request is abstracted to the parts the handlers look at: the method,
the extracted validationToken query parameter (`""` when absent, as
`r.URL.Query().Get` returns), and the outcome that `ioutil.ReadAll(r.Body)`
would produce for this request (`Except`: error message or the body bytes).
A response is the status code and body written to the ResponseWriter;
`http.Error` writes its message plus a newline.
-/

structure HttpRequest where
  method : String
  validationToken : String
  bodyRead : Except String String
deriving Repr

structure HttpResponse where
  status : Nat
  body : String
deriving DecidableEq, Repr

/-- Messages the `WebhookServer` handler sends on `app.webhookChan`,
one constructor per `fmt.Sprintf` site in graphhelper.go. -/
inductive ChanMsg where
  | methodNotAllowed (method : String)
  | validationEcho (token : String)
  | readFailure (err : String)
  | received (body : String)
deriving DecidableEq, Repr

/-- Rendering of a channel message as the exact Go format string, with the
wall-clock `time.Now().Format ("15:04:05")` value passed in as `now`. -/
def ChanMsg.render (now : String) : ChanMsg → String
  | .methodNotAllowed m =>
      "[" ++ now ++ "] Method not allowed: " ++ m ++ "\n"
  | .validationEcho t =>
      "[yellow][" ++ now ++ "][white] Validation token sent: " ++ t ++ "\n"
  | .readFailure e =>
      "[yellow][" ++ now ++ "][white] Failed to read request body: " ++ e ++ "\n"
  | .received b =>
      "[yellow][" ++ now ++ "][white] Received notification: " ++ b ++ "\n"

/-- Messages the `App` handler appends with `appendToWebhookOutput`,
one constructor per `fmt.Sprintf` site in webhook..go. -/
inductive AppMsg where
  | validationReceived (token : String)
  | webhookNotification (body : String)
deriving DecidableEq, Repr

/-- Rendering of an `App` handler message with its exact Go format string. -/
def AppMsg.render : AppMsg → String
  | .validationReceived t =>
      "[green]Validation token received:[white] " ++ t ++ "\n"
  | .webhookNotification b =>
      "[yellow]Webhook notification:[white] " ++ b ++ "\n"

/-- Embedding of `WebhookServer.handleWebhook` (graphhelper.go).
Order of the source: method check, then validation-token check, then body
read, then notification. Returns the HTTP response together with the list
of messages sent on `webhookChan`. -/
def WebhookServer.handleWebhook (r : HttpRequest) : HttpResponse × List ChanMsg :=
  if r.method ≠ "POST" then
    (⟨405, "Method not allowed\n"⟩, [.methodNotAllowed r.method])
  else if r.validationToken ≠ "" then
    (⟨200, r.validationToken⟩, [.validationEcho r.validationToken])
  else
    match r.bodyRead with
    | .error e => (⟨500, "Failed to read request body\n"⟩, [.readFailure e])
    | .ok body => (⟨200, "Notification received"⟩, [.received body])

/-- Embedding of `App.handleWebhook` (webhook..go).
Order of the source: method check, then body read (before the token check),
then validation-token check, then notification. Returns the HTTP response
together with the list of `appendToWebhookOutput` messages. -/
def App.handleWebhook (r : HttpRequest) : HttpResponse × List AppMsg :=
  if r.method ≠ "POST" then
    (⟨405, "Method not allowed\n"⟩, [])
  else
    match r.bodyRead with
    | .error _ => (⟨500, "Failed to read request body\n"⟩, [])
    | .ok body =>
      if r.validationToken ≠ "" then
        (⟨200, r.validationToken⟩, [.validationReceived r.validationToken])
      else
        (⟨200, "Notification received"⟩, [.webhookNotification body])

/-! ### Claims C1, C2, C3, C8 -/

/-- Claim C1, counterexample. The claim states that every POST carrying a
non-empty validationToken is answered 200 with the token as body even when
reading the request body fails. `App.handleWebhook` reads the body before
looking at the token, so a POST with token T whose body read fails gets a
500 with the read-failure message, not the echo. -/
theorem C1_counterexample :
    App.handleWebhook ⟨"POST", "T", .error "read failed"⟩ =
      (⟨500, "Failed to read request body\n"⟩, []) ∧
    (App.handleWebhook ⟨"POST", "T", .error "read failed"⟩).1 ≠ ⟨200, "T"⟩ := by
  constructor
  · rfl
  · decide

/-- Claim C1, amended: for a POST with a non-empty validationToken,
`WebhookServer.handleWebhook` answers 200 with the token as body whatever
the body read outcome is; `App.handleWebhook` does so whenever the body
read succeeds (whatever the content), but answers 500 when the read fails. -/
theorem C1_theorem (t : String) (ht : t ≠ "") (br : Except String String) (b : String) :
    (WebhookServer.handleWebhook ⟨"POST", t, br⟩).1 = ⟨200, t⟩ ∧
    (App.handleWebhook ⟨"POST", t, .ok b⟩).1 = ⟨200, t⟩ ∧
    (App.handleWebhook ⟨"POST", t, .error b⟩).1 = ⟨500, "Failed to read request body\n"⟩ := by
  refine ⟨?_, ?_, rfl⟩
  · simp [WebhookServer.handleWebhook, ht]
  · simp [App.handleWebhook, ht]

/-- Claim C1, witness for the amended theorem at token T and body x. -/
theorem C1_witness :
    (WebhookServer.handleWebhook ⟨"POST", "T", .error "e"⟩).1 = ⟨200, "T"⟩ ∧
    (App.handleWebhook ⟨"POST", "T", .ok "x"⟩).1 = ⟨200, "T"⟩ ∧
    (App.handleWebhook ⟨"POST", "T", .error "x"⟩).1 =
      ⟨500, "Failed to read request body\n"⟩ := by
  have h := C1_theorem "T" (by decide) (.error "e") "x"
  have h2 := C1_theorem "T" (by decide) (.error "x") "x"
  exact ⟨h.1, h.2.1, h2.2.2⟩

/-- Claim C2: a request whose method is not POST is answered with status
405 by both handlers, for every validation token and body read outcome. -/
theorem C2_theorem (r : HttpRequest) (h : r.method ≠ "POST") :
    (App.handleWebhook r).1.status = 405 ∧
    (WebhookServer.handleWebhook r).1.status = 405 := by
  constructor
  · simp [App.handleWebhook, h]
  · simp [WebhookServer.handleWebhook, h]

/-- Claim C2, witness: a GET request with a token and a readable body. -/
theorem C2_witness :
    (App.handleWebhook ⟨"GET", "T", .ok "x"⟩).1.status = 405 ∧
    (WebhookServer.handleWebhook ⟨"GET", "T", .ok "x"⟩).1.status = 405 :=
  C2_theorem ⟨"GET", "T", .ok "x"⟩ (by decide)

/-- Claim C3: for a POST without a validation token, a successful body read
makes each handler emit exactly one notification message whose rendering
contains the body, and answer 200 with body Notification received; a failed
body read makes each answer 500 and emit no notification message. -/
theorem C3_theorem (b e : String) :
    WebhookServer.handleWebhook ⟨"POST", "", .ok b⟩ =
      (⟨200, "Notification received"⟩, [.received b]) ∧
    App.handleWebhook ⟨"POST", "", .ok b⟩ =
      (⟨200, "Notification received"⟩, [.webhookNotification b]) ∧
    (∀ now, ∃ pre post, (ChanMsg.received b).render now = pre ++ b ++ post) ∧
    (∃ pre post, (AppMsg.webhookNotification b).render = pre ++ b ++ post) ∧
    (WebhookServer.handleWebhook ⟨"POST", "", .error e⟩).1.status = 500 ∧
    (∀ b2, ChanMsg.received b2 ∉ (WebhookServer.handleWebhook ⟨"POST", "", .error e⟩).2) ∧
    App.handleWebhook ⟨"POST", "", .error e⟩ =
      (⟨500, "Failed to read request body\n"⟩, []) := by
  refine ⟨rfl, rfl, ?_, ?_, rfl, ?_, rfl⟩
  · intro now
    exact ⟨"[yellow][" ++ now ++ "][white] Received notification: ", "\n", by
      simp [ChanMsg.render, String.append_assoc]⟩
  · exact ⟨"[yellow]Webhook notification:[white] ", "\n", rfl⟩
  · intro b2 hmem
    simp [WebhookServer.handleWebhook] at hmem

/-- Claim C8, counterexample. The two handlers are not behaviourally
equivalent at the HTTP interface: on a POST with a non-empty token whose
body read fails, `WebhookServer.handleWebhook` echoes the token with 200
while `App.handleWebhook` answers 500. -/
theorem C8_counterexample :
    (WebhookServer.handleWebhook ⟨"POST", "T", .error "read failed"⟩).1 = ⟨200, "T"⟩ ∧
    (App.handleWebhook ⟨"POST", "T", .error "read failed"⟩).1 =
      ⟨500, "Failed to read request body\n"⟩ ∧
    (WebhookServer.handleWebhook ⟨"POST", "T", .error "read failed"⟩).1 ≠
      (App.handleWebhook ⟨"POST", "T", .error "read failed"⟩).1 := by
  refine ⟨rfl, rfl, by decide⟩

/-- Claim C8, amended: the two handlers produce the same response status
and body on every request except a POST that carries a non-empty
validation token and whose body read fails. -/
theorem C8_theorem (r : HttpRequest)
    (h : ¬(r.method = "POST" ∧ r.validationToken ≠ "" ∧ ∃ e, r.bodyRead = .error e)) :
    (App.handleWebhook r).1 = (WebhookServer.handleWebhook r).1 := by
  obtain ⟨m, t, br⟩ := r
  by_cases hm : m = "POST"
  · subst hm
    by_cases ht : t = ""
    · subst ht
      cases br <;> rfl
    · cases br with
      | error e => exact absurd ⟨rfl, ht, e, rfl⟩ h
      | ok b => simp [App.handleWebhook, WebhookServer.handleWebhook, ht]
  · simp [App.handleWebhook, WebhookServer.handleWebhook, hm]

/-- Claim C8, witness for the amended equivalence: a POST notification
request with readable body, where both handlers answer 200. -/
theorem C8_witness :
    (App.handleWebhook ⟨"POST", "", .ok "x"⟩).1 =
      (WebhookServer.handleWebhook ⟨"POST", "", .ok "x"⟩).1 :=
  C8_theorem ⟨"POST", "", .ok "x"⟩ (by simp)

/-! ## Notification aggregator

`processWebhookUpdates` (webhook..go) runs a select loop: a receive on
`webhookChan` appends the message to a local batch `updates`; a 100ms
ticker fire appends `strings.Join(updates, "\n")` to the webhook display
buffer and resets the batch, but only when the batch is non-empty. The
state is the pending batch plus the sequence of writes made to the
display buffer, and the loop body is a step function on events.
-/

structure AggState where
  updates : List String
  buffer : List String
deriving DecidableEq, Repr

inductive AggEvent where
  | enqueue (s : String)
  | tick
deriving DecidableEq, Repr

/-- One iteration of the `processWebhookUpdates` select loop. -/
def aggStep (st : AggState) : AggEvent → AggState
  | .enqueue s => ⟨st.updates ++ [s], st.buffer⟩
  | .tick =>
    if st.updates.isEmpty then st
    else ⟨[], st.buffer ++ [String.intercalate "\n" st.updates]⟩

/-- The loop run over a sequence of events. -/
def aggRun (st : AggState) (es : List AggEvent) : AggState :=
  es.foldl aggStep st

theorem aggRun_enqueues (pend buf : List String) (ns : List String) :
    aggRun ⟨pend, buf⟩ (ns.map .enqueue) = ⟨pend ++ ns, buf⟩ := by
  induction ns generalizing pend with
  | nil => simp [aggRun]
  | cons n ns ih =>
    simp only [List.map_cons, aggRun, List.foldl_cons] at *
    rw [show aggStep ⟨pend, buf⟩ (.enqueue n) = ⟨pend ++ [n], buf⟩ from rfl]
    rw [ih (pend ++ [n])]
    simp

/-- Claim C4: N notification strings enqueued between two ticks are
appended to the display buffer by the next tick as a single write, the
join of all N in arrival order, and the pending batch is cleared; a tick
with an empty batch appends nothing. -/
theorem C4_theorem (buf : List String) (ns : List String) :
    (ns ≠ [] →
      aggRun ⟨[], buf⟩ (ns.map .enqueue ++ [.tick]) =
        ⟨[], buf ++ [String.intercalate "\n" ns]⟩) ∧
    (ns = [] → aggRun ⟨[], buf⟩ (ns.map .enqueue ++ [.tick]) = ⟨[], buf⟩) := by
  constructor
  · intro hne
    have h1 : aggRun ⟨[], buf⟩ (ns.map .enqueue) = ⟨ns, buf⟩ := by
      simpa using aggRun_enqueues [] buf ns
    simp only [aggRun, List.foldl_append] at *
    rw [h1]
    simp [aggStep, hne]
  · intro he
    subst he
    simp [aggRun, aggStep]

/-- Claim C4, witness: two messages then a tick produce exactly one joined
write; a tick with no messages produces none. -/
theorem C4_witness :
    aggRun ⟨[], ["old"]⟩ [.enqueue "a", .enqueue "b", .tick] =
      ⟨[], ["old", "a\nb"]⟩ ∧
    aggRun ⟨[], ["old"]⟩ [.tick] = ⟨[], ["old"]⟩ := by
  constructor
  · have h := C4_theorem ["old"] ["a", "b"]
    have h2 := h.1 (by decide)
    simpa using h2
  · have h := C4_theorem ["old"] []
    have h2 := h.2 rfl
    simpa using h2

/-! ## Client operation error handling

Each UI operation issues one Graph API call and renders the outcome into a
text panel. The API outcome is abstracted as `Except String α`: an error
message or a typed payload; the payload rendering is a parameter since the
claims are about the error path. The observable outcome of a handler is
the list of lines written to its panel and whether it returned normally or
panicked (`log.Panicf` logs and then panics).
-/

inductive HandlerOutcome where
  | returned
  | panicked
deriving DecidableEq, Repr

structure OpResult where
  lines : List String
  outcome : HandlerOutcome
deriving DecidableEq, Repr

/-- Embedding of `GraphHelper.ListUsers` (part_001): on an API error it
calls `log.Panicf ("Error getting users: %v", err)`, writing nothing to
the panel; on success it renders the users into the panel and returns. -/
def GraphHelper.ListUsers (api : Except String α) (renderUsers : α → List String) : OpResult :=
  match api with
  | .error _ => ⟨[], .panicked⟩
  | .ok users => ⟨renderUsers users, .returned⟩

/-- Embedding of `GraphHelper.ListRooms` (part_001): on an API error it
writes a formatted line and returns; on success it renders the rooms. -/
def GraphHelper.ListRooms (api : Except String α) (renderRooms : α → List String) : OpResult :=
  match api with
  | .error e => ⟨["Failed to list rooms: " ++ e ++ "\n"], .returned⟩
  | .ok rooms => ⟨renderRooms rooms, .returned⟩

/-- Embedding of `App.HandleListSubscriptions` (subscription.go): after the
header line, an API error yields a formatted red error line and a normal
return; on success the subscriptions are rendered. -/
def App.HandleListSubscriptions (api : Except String α) (renderSubs : α → List String) : OpResult :=
  match api with
  | .error e =>
      ⟨["Listing subscriptions...\n", "[red]Error making Graph call: " ++ e ++ "[white]\n"],
       .returned⟩
  | .ok subs => ⟨"Listing subscriptions...\n" :: renderSubs subs, .returned⟩

/-- Claim C5, counterexample. The claim says every operation swallows an
API error: writes a formatted error line to its panel and returns
normally. `GraphHelper.ListUsers` instead panics via `log.Panicf` on an
API error and writes no line to the panel. -/
theorem C5_counterexample :
    GraphHelper.ListUsers (α := Unit) (.error "boom") (fun _ => []) =
      ⟨[], .panicked⟩ ∧
    (GraphHelper.ListUsers (α := Unit) (.error "boom") (fun _ => [])).outcome ≠
      .returned := by
  exact ⟨rfl, by decide⟩

/-- Claim C5, amended: of the cited operations, `ListRooms` and
`HandleListSubscriptions` swallow an API error, writing a formatted error
line mentioning the error to the panel and returning normally, while
`ListUsers` writes nothing and panics. -/
theorem C5_theorem (e : String) (renderA : α → List String) :
    (GraphHelper.ListRooms (.error e) renderA =
      ⟨["Failed to list rooms: " ++ e ++ "\n"], .returned⟩) ∧
    (App.HandleListSubscriptions (.error e) renderA =
      ⟨["Listing subscriptions...\n", "[red]Error making Graph call: " ++ e ++ "[white]\n"],
       .returned⟩) ∧
    (GraphHelper.ListUsers (.error e) renderA = ⟨[], .panicked⟩) :=
  ⟨rfl, rfl, rfl⟩

/-! ## Context deadlines on outbound calls

Every in-program call site passes `context.Background()` (no deadline) to
the client operations. The operations either issue their Graph call with
`context.Background()` directly, pass the caller context through, or, for
`CreateEvent` only, wrap the caller context in `context.WithTimeout (30s)`
when it has no deadline yet. Each operation is modelled by the deadline
(in seconds) that its issued call carries as a function of the caller
context deadline. `CreateEventz` is never called by the program and is
excluded. -/

inductive ClientOp where
  | getUsers
  | listSubscriptions
  | listRooms
  | listRoomsAll
  | listRoom7DaysBookings
  | createRoomSubscription
  | deleteSubscription
  | deleteEvent
  | createEvent
  | createEventAsRoom
  | roomExists
deriving DecidableEq, Repr

/-- Deadline of the issued Graph call given the caller context deadline.
`getUsers`, `listSubscriptions`, `createRoomSubscription` and
`deleteEvent` pass the caller context through; `listRooms`,
`listRoomsAll`, `listRoom7DaysBookings`, `deleteSubscription`,
`createEventAsRoom` and `roomExists` call with `context.Background()`;
`createEvent` adds a 30-second timeout when the caller has no deadline. -/
def issuedDeadline : ClientOp → Option Nat → Option Nat
  | .getUsers, d => d
  | .listSubscriptions, d => d
  | .listRooms, _ => none
  | .listRoomsAll, _ => none
  | .listRoom7DaysBookings, _ => none
  | .createRoomSubscription, d => d
  | .deleteSubscription, _ => none
  | .deleteEvent, d => d
  | .createEvent, d => match d with
    | none => some 30
    | some t => some t
  | .createEventAsRoom, _ => none
  | .roomExists, _ => none

/-- Caller-side context deadline at every in-program call site: all
handlers and menu actions pass `context.Background()`, which has none. -/
def programCallerDeadline : ClientOp → Option Nat := fun _ => none

/-- Claim C7: with the deadlines the program's call sites provide, only
event creation issues its call under an enforced timeout, namely 30
seconds; `CreateEvent` attaches the 30-second deadline exactly when the
caller context has none, and keeps a caller deadline that exists. -/
theorem C7_theorem :
    (∀ op : ClientOp,
      issuedDeadline op (programCallerDeadline op) =
        if op = .createEvent then some 30 else none) ∧
    issuedDeadline .createEvent none = some 30 ∧
    (∀ t : Nat, issuedDeadline .createEvent (some t) = some t) := by
  refine ⟨?_, rfl, fun t => rfl⟩
  intro op
  cases op <;> rfl

/-! ## Startup sequence and environment variables

The environment is a map from variable name to value, with the Go
`os.Getenv` convention that an unset variable reads as `""`. The getters
`GetOrganiserEmail`, `GetRoomEmail`, `GetPort` and `GetNotificationUrl`
call `log.Fatal` (process abort) when their variable reads empty; this is
modelled by returning `none`.

The `main` of the dashboard build (webhook..go) runs, on the main
goroutine and in this order: load .env, `initializeGraph` (reads
CLIENT_ID, TENANT_ID, CLIENT_SECRET and hands them to the external
credential constructor, whose failure aborts via `log.Panicf` and is
abstracted as the flag `credInitOk`), `NewApp`, `GetOrganiserEmail`,
`GetRoomEmail`, then spawns the webhook-server goroutine (whose first
step calls `GetPort`) and finally `app.Run()`, which is the point where
the UI is shown. `GetNotificationUrl` is not called anywhere on this
path; it is called only inside `CreateRoomSubscription`.
-/

def GraphHelper.GetOrganiserEmail (env : String → String) : Option String :=
  if env ("ORGANISER_EMAIL") = "" then none else some (env ("ORGANISER_EMAIL"))

def GraphHelper.GetRoomEmail (env : String → String) : Option String :=
  if env ("ROOM_EMAIL") = "" then none else some (env ("ROOM_EMAIL"))

/-- On success `GetPort` returns the port prefixed with a colon. -/
def GraphHelper.GetPort (env : String → String) : Option String :=
  if env ("PORT") = "" then none else some (":" ++ env ("PORT"))

def GraphHelper.GetNotificationUrl (env : String → String) : Option String :=
  if env ("ENDPOINT") = "" then none else some (env ("ENDPOINT"))

inductive StartupOutcome where
  | credInitAborted
  | organiserEmailFatal
  | roomEmailFatal
  | uiStarted
deriving DecidableEq, Repr

/-- The main-goroutine prefix of `main` (webhook..go) up to `app.Run()`:
the result is the abort taken, or `uiStarted` when execution reaches the
point where the terminal UI is shown. -/
def mainBeforeUI (env : String → String) (credInitOk : Bool) : StartupOutcome :=
  if credInitOk = false then .credInitAborted
  else
    match GraphHelper.GetOrganiserEmail env with
    | none => .organiserEmailFatal
    | some _ =>
      match GraphHelper.GetRoomEmail env with
      | none => .roomEmailFatal
      | some _ => .uiStarted

/-- First step of the webhook-server goroutine spawned by `main`: it
calls `GetPort`, so it aborts the process iff PORT is unset. This runs
concurrently with `app.Run()`, not before it. -/
def webhookServerStart (env : String → String) : Option String :=
  GraphHelper.GetPort env

/-- First step of `CreateRoomSubscription` (part_001): it calls
`GetNotificationUrl`, so an unset ENDPOINT aborts only here, reachable
solely from the create-subscription menu action after the UI is up. -/
def createRoomSubscriptionUrl (env : String → String) : Option String :=
  GraphHelper.GetNotificationUrl env

/-- Claim C6, counterexample. The claim says each of the seven variables,
ENDPOINT included, causes a process abort before any UI is shown when
unset. With every variable set except ENDPOINT, startup reaches the point
where the UI is shown without any abort: ENDPOINT is not consulted on the
startup path at all. -/
theorem C6_counterexample :
    (fun v => if v = "ENDPOINT" then "" else "set" : String → String) ("ENDPOINT") = "" ∧
    mainBeforeUI (fun v => if v = "ENDPOINT" then "" else "set") true = .uiStarted := by
  constructor
  · decide
  · rfl

/-- Claim C6, amended: ORGANISER_EMAIL and ROOM_EMAIL are checked fatally
on the startup path before the UI is shown (in that order, after the
credential initialisation abort); the startup path is entirely
independent of ENDPOINT, which is checked fatally only when a
subscription is created; PORT is checked fatally in the webhook-server
goroutine, which runs concurrently with the UI, not before it. -/
theorem C6_theorem :
    (∀ env : String → String, env ("ORGANISER_EMAIL") = "" →
      mainBeforeUI env true = .organiserEmailFatal) ∧
    (∀ env : String → String, env ("ORGANISER_EMAIL") ≠ "" → env ("ROOM_EMAIL") = "" →
      mainBeforeUI env true = .roomEmailFatal) ∧
    (∀ env env2 : String → String, ∀ ok : Bool,
      (∀ v, v ≠ "ENDPOINT" → env v = env2 v) →
      mainBeforeUI env ok = mainBeforeUI env2 ok) ∧
    (∀ env : String → String, env ("ENDPOINT") = "" →
      createRoomSubscriptionUrl env = none) ∧
    (∀ env : String → String, env ("PORT") = "" → webhookServerStart env = none) := by
  refine ⟨?_, ?_, ?_, ?_, ?_⟩
  · intro env h
    simp [mainBeforeUI, GraphHelper.GetOrganiserEmail, h]
  · intro env h1 h2
    simp [mainBeforeUI, GraphHelper.GetOrganiserEmail, GraphHelper.GetRoomEmail, h1, h2]
  · intro env env2 ok hagree
    have ho : env ("ORGANISER_EMAIL") = env2 ("ORGANISER_EMAIL") := hagree _ (by decide)
    have hr : env ("ROOM_EMAIL") = env2 ("ROOM_EMAIL") := hagree _ (by decide)
    simp [mainBeforeUI, GraphHelper.GetOrganiserEmail, GraphHelper.GetRoomEmail, ho, hr]
  · intro env h
    simp [createRoomSubscriptionUrl, GraphHelper.GetNotificationUrl, h]
  · intro env h
    simp [webhookServerStart, GraphHelper.GetPort, h]

/-- Claim C6, witness for the amended theorem on concrete environments. -/
theorem C6_witness :
    mainBeforeUI (fun _ => "") true = .organiserEmailFatal ∧
    mainBeforeUI (fun v => if v = "ROOM_EMAIL" then "" else "set") true = .roomEmailFatal ∧
    mainBeforeUI (fun v => if v = "ENDPOINT" then "" else "set") true =
      mainBeforeUI (fun v => if v = "ENDPOINT" then "url" else "set") true ∧
    createRoomSubscriptionUrl (fun _ => "") = none ∧
    webhookServerStart (fun _ => "") = none := by
  refine ⟨C6_theorem.1 _ rfl, C6_theorem.2.1 _ (by decide) (by decide), ?_, ?_, ?_⟩
  · exact C6_theorem.2.2.1 _ _ true (fun v hv => by simp [hv])
  · exact C6_theorem.2.2.2.1 _ rfl
  · exact C6_theorem.2.2.2.2 _ rfl

/-! ## The room cache and GetRoom

`GraphHelper` carries a cache with a rooms map, a last-update instant and
a lock. `NewGraphHelper` leaves the map nil. `GetRoom` consults the cache
(hit requires presence and a last update less than five minutes old) and
otherwise falls through to `return nil, nil`: every statement that would
fetch a room or insert into the cache is commented out. No other function
of the program reads or writes `g.cache`. The cache state is the
association list of cached rooms plus the freshness of the last update;
the room payload type is a parameter. -/

structure GraphHelperCache (α : Type) where
  rooms : List (String × α)
  fresh : Bool
deriving Repr

/-- Cache state made by `NewGraphHelper`: nil map, zero last-update
instant (stale). -/
def NewGraphHelperCache (α : Type) : GraphHelperCache α := ⟨[], false⟩

/-- Embedding of `GraphHelper.GetRoom` (part_001): returns the cached room
on a fresh hit and otherwise `(nil, nil)`; it never mutates the cache. -/
def GraphHelper.GetRoom (g : GraphHelperCache α) (email : String) :
    (Option α × Option String) × GraphHelperCache α :=
  match (g.rooms.lookup email) with
  | some room => if g.fresh then ((some room, none), g) else ((none, none), g)
  | none => ((none, none), g)

/-- The operations of the program that touch a `GraphHelper`. Only
`getRoom` reads the cache; no operation writes it (the writes in
`GetRoom` are commented out in the build). -/
inductive GHOp where
  | getUsers
  | listUsers
  | listSubscriptions
  | listRooms
  | listRoomsAll
  | listRoom7DaysBookings
  | createRoomSubscription
  | deleteSubscription
  | deleteEvent
  | createEvent
  | createEventAsRoom
  | roomExists
  | getRoom (email : String)
deriving Repr

/-- Effect of each operation on the cache, read off from the source:
`getRoom` returns the unchanged state it threads, every other operation
never mentions `g.cache`. -/
def GHOp.cacheEffect (g : GraphHelperCache α) : GHOp → GraphHelperCache α
  | .getRoom email => (GraphHelper.GetRoom g email).2
  | _ => g

theorem cacheEffect_preserves (g : GraphHelperCache α) (op : GHOp) :
    GHOp.cacheEffect g op = g := by
  cases op with
  | getRoom email =>
    show (GraphHelper.GetRoom g email).2 = g
    unfold GraphHelper.GetRoom
    rcases h : g.rooms.lookup email with _ | room
    · simp
    · simp only []
      by_cases hf : g.fresh <;> simp [hf]
  | _ => rfl

/-- Claim C9: starting from `NewGraphHelper`, after any sequence of
program operations the cache map is still empty, and `GetRoom` returns a
nil room and a nil error for every email, leaving the state unchanged. -/
theorem C9_theorem (α : Type) (ops : List GHOp) (email : String) :
    (ops.foldl GHOp.cacheEffect (NewGraphHelperCache α)).rooms = [] ∧
    GraphHelper.GetRoom (ops.foldl GHOp.cacheEffect (NewGraphHelperCache α)) email =
      ((none, none), ops.foldl GHOp.cacheEffect (NewGraphHelperCache α)) := by
  have hfold : ops.foldl GHOp.cacheEffect (NewGraphHelperCache α) = NewGraphHelperCache α := by
    induction ops with
    | nil => rfl
    | cons op ops ih =>
      simp only [List.foldl_cons, cacheEffect_preserves]
      exact ih
  rw [hfold]
  exact ⟨rfl, rfl⟩

/-! ## ConvertToLocalTime

`ConvertToLocalTime` (part_001, graphhelper.go) runs Go
`time.Parse ("2006-01-02T15:04:05.999999999", s)` and on success converts
the result with `Local()`, which changes only the location attached to
the value, not the instant; on failure it returns the zero time and the
error. It is modelled as an `Option` over the parsed calendar fields, a
faithful specialisation of the stdlib parse loop to this layout:

* 2006 is stdLongYear: exactly four digits;
* 01, 02, 04, 05 are the zero-padded chunks: exactly two digits each,
  with month range-checked 1..12, minute and second range-checked 0..59,
  and the day validated 1..daysIn(month, year) at the end;
* 15 is stdHour, parsed with getnum in non-fixed mode: one or two
  digits, range-checked 0..23;
* .999999999 is stdFracSecond9: an optional fraction, present when the
  next character is a period or comma followed by a digit, consuming
  every following digit, keeping nine digits of precision;
* the dashes, T and colons are literal; any text left after the layout
  is exhausted is an error (this is what rejects timezone designators
  such as Z or a numeric offset, which the layout never consumes).
-/

structure GoDateTime where
  year : Nat
  month : Nat
  day : Nat
  hour : Nat
  minute : Nat
  second : Nat
  nanosecond : Nat
deriving DecidableEq, Repr

def digitVal (c : Char) : Nat := c.toNat - 48

def twoDigitVal (a b : Char) : Nat := 10 * digitVal a + digitVal b

def fourDigitVal (a b c d : Char) : Nat :=
  1000 * digitVal a + 100 * digitVal b + 10 * digitVal c + digitVal d

/-- Go `getnum` in fixed (two-digit) mode. -/
def getnum2 : List Char → Option (Nat × List Char)
  | a :: b :: rest =>
    if a.isDigit ∧ b.isDigit then some (twoDigitVal a b, rest) else none
  | _ => none

/-- Go stdLongYear: four digits. -/
def getnum4 : List Char → Option (Nat × List Char)
  | a :: b :: c :: d :: rest =>
    if a.isDigit ∧ b.isDigit ∧ c.isDigit ∧ d.isDigit then
      some (fourDigitVal a b c d, rest)
    else none
  | _ => none

/-- Go `getnum` in non-fixed mode, as used for stdHour: one digit when
the second character is not a digit, two digits otherwise. -/
def getnumHour : List Char → Option (Nat × List Char)
  | [] => none
  | [a] => if a.isDigit then some (digitVal a, []) else none
  | a :: b :: rest =>
    if a.isDigit then
      if b.isDigit then some (twoDigitVal a b, rest)
      else some (digitVal a, b :: rest)
    else none

/-- A literal layout character, consumed by Go `skip`. -/
def lit (c : Char) : List Char → Option (List Char)
  | d :: rest => if d = c then some rest else none
  | [] => none

def commaOrPeriod (c : Char) : Bool := c = '.' ∨ c = ','

/-- Nanoseconds from the fraction digits: Go `parseNanoseconds` keeps at
most nine digits and scales the value to nanoseconds. -/
def nanoVal (ds : List Char) : Nat :=
  ((ds.take 9).foldl (fun a c => 10 * a + digitVal c) 0) * 10 ^ (9 - (ds.take 9).length)

/-- Go stdFracSecond9: the fraction is present when a period or comma
followed by a digit comes next, and then consumes every following digit;
otherwise it is omitted and consumes nothing. -/
def parseFracOpt : List Char → Nat × List Char
  | c :: d :: rest =>
    if commaOrPeriod c ∧ d.isDigit then
      (nanoVal (d :: rest.takeWhile Char.isDigit), rest.dropWhile Char.isDigit)
    else (0, c :: d :: rest)
  | cs => (0, cs)

def isLeapYear (y : Nat) : Bool := y % 4 = 0 ∧ (y % 100 ≠ 0 ∨ y % 400 = 0)

/-- Go `daysIn`. -/
def daysIn (month year : Nat) : Nat :=
  if month = 2 then (if isLeapYear year then 29 else 28)
  else if month = 4 ∨ month = 6 ∨ month = 9 ∨ month = 11 then 30
  else 31

/-- A decidable side condition of the parse loop: `none` aborts the
parse, like a range or extra-text error. -/
def check (p : Prop) [Decidable p] : Option Unit :=
  if p then some () else none

structure DateParts where
  year : Nat
  month : Nat
  day : Nat
  rest : List Char
deriving DecidableEq, Repr

structure TimeParts where
  hour : Nat
  minute : Nat
  second : Nat
  rest : List Char
deriving DecidableEq, Repr

/-- The date half of the layout: 2006-01-02T. -/
def parseDatePart (cs : List Char) : Option DateParts := do
  let py ← getnum4 cs
  let cs1 ← lit '-' py.2
  let pm ← getnum2 cs1
  let _ ← check (1 ≤ pm.1 ∧ pm.1 ≤ 12)
  let cs2 ← lit '-' pm.2
  let pd ← getnum2 cs2
  let cs3 ← lit 'T' pd.2
  pure ⟨py.1, pm.1, pd.1, cs3⟩

/-- The time half of the layout: 15:04:05. -/
def parseTimePart (cs : List Char) : Option TimeParts := do
  let ph ← getnumHour cs
  let _ ← check (ph.1 ≤ 23)
  let cs4 ← lit ':' ph.2
  let pn ← getnum2 cs4
  let _ ← check (pn.1 ≤ 59)
  let cs5 ← lit ':' pn.2
  let ps ← getnum2 cs5
  let _ ← check (ps.1 ≤ 59)
  pure ⟨ph.1, pn.1, ps.1, ps.2⟩

/-- Go `time.Parse` specialised to layout 2006-01-02T15:04:05.999999999,
returning the parsed calendar fields: date part, time part, optional
fraction, the extra-text check, then the day validation. -/
def parse2006 (cs : List Char) : Option GoDateTime := do
  let d ← parseDatePart cs
  let t ← parseTimePart d.rest
  let _ ← check ((parseFracOpt t.rest).2 = [])
  let _ ← check (1 ≤ d.day ∧ d.day ≤ daysIn d.month d.year)
  pure ⟨d.year, d.month, d.day, t.hour, t.minute, t.second, (parseFracOpt t.rest).1⟩

/-- Embedding of `ConvertToLocalTime`: parse, then `Local()`, which
keeps the parsed instant; `none` stands for (zero time, non-nil error). -/
def ConvertToLocalTime (s : String) : Option GoDateTime :=
  parse2006 s.data

/-! ### The layout set named by the claim

The claim asserts that `ConvertToLocalTime` succeeds exactly on strings
matching the literal layout 2006-01-02T15:04:05 with optional fractional
seconds: four-digit year, two-digit month, day, hour, minute and second,
and a fraction introduced by a period. The following acceptor is that
set, written with the same field and range conventions; it differs from
the code in the two places the code is more liberal: the hour may not be
a single digit and the fraction may not be introduced by a comma. -/

def claimedFracOpt : List Char → Nat × List Char
  | c :: d :: rest =>
    if c = '.' ∧ d.isDigit then
      (nanoVal (d :: rest.takeWhile Char.isDigit), rest.dropWhile Char.isDigit)
    else (0, c :: d :: rest)
  | cs => (0, cs)

def claimedTimePart (cs : List Char) : Option TimeParts := do
  let ph ← getnum2 cs
  let _ ← check (ph.1 ≤ 23)
  let cs4 ← lit ':' ph.2
  let pn ← getnum2 cs4
  let _ ← check (pn.1 ≤ 59)
  let cs5 ← lit ':' pn.2
  let ps ← getnum2 cs5
  let _ ← check (ps.1 ≤ 59)
  pure ⟨ph.1, pn.1, ps.1, ps.2⟩

def claimedParse (cs : List Char) : Option GoDateTime := do
  let d ← parseDatePart cs
  let t ← claimedTimePart d.rest
  let _ ← check ((claimedFracOpt t.rest).2 = [])
  let _ ← check (1 ≤ d.day ∧ d.day ≤ daysIn d.month d.year)
  pure ⟨d.year, d.month, d.day, t.hour, t.minute, t.second, (claimedFracOpt t.rest).1⟩

/-- Acceptance of the layout set the claim describes. -/
def claimedLayoutAccepts (s : String) : Bool :=
  (claimedParse s.data).isSome

/-- Claim C10, counterexample. `ConvertToLocalTime` succeeds on strings
outside the claimed layout set: the hour chunk 15 is parsed by Go
`getnum` in non-fixed mode, so a single-digit hour is accepted, and the
fractional second may be introduced by a comma as well as a period. -/
theorem C10_counterexample :
    (ConvertToLocalTime ("2024-01-02T5:04:05")).isSome = true ∧
    claimedLayoutAccepts ("2024-01-02T5:04:05") = false ∧
    (ConvertToLocalTime ("2024-01-02T15:04:05,5")).isSome = true ∧
    claimedLayoutAccepts ("2024-01-02T15:04:05,5") = false := by
  refine ⟨?_, ?_, ?_, ?_⟩ <;> decide


/-! ### Inversion and computation lemmas for the parser pieces -/

theorem check_eq_some {p : Prop} [Decidable p] {u : Unit} : check p = some u ↔ p := by
  cases u
  unfold check
  split <;> simp [*]

theorem lit_eq_some {c : Char} {cs rest : List Char} :
    lit c cs = some rest ↔ cs = c :: rest := by
  cases cs with
  | nil => simp [lit]
  | cons d r => by_cases h : d = c <;> simp [lit, h]

theorem getnum2_eq_some {cs rest : List Char} {v : Nat} :
    getnum2 cs = some (v, rest) ↔
    ∃ a b, cs = a :: b :: rest ∧ a.isDigit = true ∧ b.isDigit = true ∧ v = twoDigitVal a b := by
  match cs with
  | [] => simp [getnum2]
  | [a] => simp [getnum2]
  | a :: b :: r =>
    simp only [getnum2, Option.ite_none_right_eq_some, Option.some.injEq, Prod.mk.injEq,
      List.cons.injEq]
    constructor
    · rintro ⟨⟨ha, hb⟩, hv, hr⟩
      subst hv
      subst hr
      exact ⟨a, b, ⟨rfl, rfl, rfl⟩, ha, hb, rfl⟩
    · rintro ⟨a2, b2, ⟨rfl, rfl, hr⟩, ha, hb, hv⟩
      subst hr
      subst hv
      exact ⟨⟨ha, hb⟩, rfl, rfl⟩

theorem getnum4_eq_some {cs rest : List Char} {v : Nat} :
    getnum4 cs = some (v, rest) ↔
    ∃ a b c d, cs = a :: b :: c :: d :: rest ∧ a.isDigit = true ∧ b.isDigit = true ∧
      c.isDigit = true ∧ d.isDigit = true ∧ v = fourDigitVal a b c d := by
  match cs with
  | [] => simp [getnum4]
  | [a] => simp [getnum4]
  | [a, b] => simp [getnum4]
  | [a, b, c] => simp [getnum4]
  | a :: b :: c :: d :: r =>
    simp only [getnum4, Option.ite_none_right_eq_some, Option.some.injEq, Prod.mk.injEq,
      List.cons.injEq]
    constructor
    · rintro ⟨⟨ha, hb, hc, hd⟩, hv, hr⟩
      subst hv
      subst hr
      exact ⟨a, b, c, d, ⟨rfl, rfl, rfl, rfl, rfl⟩, ha, hb, hc, hd, rfl⟩
    · rintro ⟨a2, b2, c2, d2, ⟨rfl, rfl, rfl, rfl, hr⟩, ha, hb, hc, hd, hv⟩
      subst hr
      subst hv
      exact ⟨⟨ha, hb, hc, hd⟩, rfl, rfl⟩

theorem getnumHour_eq_some {cs rest : List Char} {v : Nat} :
    getnumHour cs = some (v, rest) ↔
    ((∃ a, cs = a :: rest ∧ a.isDigit = true ∧ v = digitVal a ∧
        (rest = [] ∨ ∃ b bs, rest = b :: bs ∧ b.isDigit = false)) ∨
     (∃ a b, cs = a :: b :: rest ∧ a.isDigit = true ∧ b.isDigit = true ∧ v = twoDigitVal a b)) := by
  match cs with
  | [] => simp [getnumHour]
  | [a] =>
    by_cases ha : a.isDigit = true
    · simp only [getnumHour, ha, if_true, Option.some.injEq, Prod.mk.injEq]
      constructor
      · rintro ⟨hv, hr⟩
        subst hv
        exact Or.inl ⟨a, by simp [hr.symm], ha, rfl, Or.inl hr.symm⟩
      · rintro (⟨a2, heq, ha2, hv, hrest⟩ | ⟨a2, b2, heq, ha2, hb2, hv⟩)
        · obtain ⟨rfl, hr⟩ := List.cons.inj heq
          subst hv
          exact ⟨rfl, hr⟩
        · simp at heq
    · simp only [getnumHour, ha, if_false]
      constructor
      · intro h
        simp at h
      · rintro (⟨a2, heq, ha2, hv, hrest⟩ | ⟨a2, b2, heq, ha2, hb2, hv⟩)
        · obtain ⟨rfl, hr⟩ := List.cons.inj heq
          simp [ha2] at ha
        · simp at heq
  | a :: b :: r =>
    by_cases ha : a.isDigit = true
    · by_cases hb : b.isDigit = true
      · simp only [getnumHour, ha, hb, if_true, Option.some.injEq, Prod.mk.injEq]
        constructor
        · rintro ⟨hv, hr⟩
          subst hv
          subst hr
          exact Or.inr ⟨a, b, rfl, ha, hb, rfl⟩
        · rintro (⟨a2, heq, ha2, hv, hrest⟩ | ⟨a2, b2, heq, ha2, hb2, hv⟩)
          · obtain ⟨rfl, hr⟩ := List.cons.inj heq
            subst hv
            rcases hrest with h0 | ⟨b2, bs, hr2, hb2⟩
            · rw [h0] at hr
              simp at hr
            · rw [hr2] at hr
              obtain ⟨rfl, _⟩ := List.cons.inj hr
              simp [hb] at hb2
          · obtain ⟨rfl, hr⟩ := List.cons.inj heq
            obtain ⟨rfl, rfl⟩ := List.cons.inj hr
            subst hv
            exact ⟨rfl, rfl⟩
      · have hbf : b.isDigit = false := by simpa using hb
        simp only [getnumHour, ha, hbf, if_true, Bool.false_eq_true, if_false,
          Option.some.injEq, Prod.mk.injEq]
        constructor
        · rintro ⟨hv, hr⟩
          subst hv
          subst hr
          exact Or.inl ⟨a, rfl, ha, rfl, Or.inr ⟨b, r, rfl, hbf⟩⟩
        · rintro (⟨a2, heq, ha2, hv, hrest⟩ | ⟨a2, b2, heq, ha2, hb2, hv⟩)
          · obtain ⟨rfl, hr⟩ := List.cons.inj heq
            subst hv
            exact ⟨rfl, hr⟩
          · obtain ⟨rfl, hr⟩ := List.cons.inj heq
            obtain ⟨rfl, rfl⟩ := List.cons.inj hr
            simp [hbf] at hb2
    · have haf : a.isDigit = false := by simpa using ha
      simp only [getnumHour, haf, Bool.false_eq_true, if_false]
      constructor
      · intro h
        simp at h
      · rintro (⟨a2, heq, ha2, hv, hrest⟩ | ⟨a2, b2, heq, ha2, hb2, hv⟩)
        · obtain ⟨rfl, _⟩ := List.cons.inj heq
          simp [haf] at ha2
        · obtain ⟨rfl, hr⟩ := List.cons.inj heq
          simp [haf] at ha2

theorem takeWhile_all_append {p : Char → Bool} (l : List Char) (z : Char) (zs : List Char)
    (hl : ∀ c ∈ l, p c = true) (hz : p z = false) :
    (l ++ z :: zs).takeWhile p = l := by
  induction l with
  | nil => simp [List.takeWhile, hz]
  | cons a t ih =>
    have ha := hl a (by simp)
    simp only [List.cons_append, List.takeWhile_cons, ha, if_true]
    rw [ih (fun c hc => hl c (by simp [hc]))]

theorem dropWhile_all_append {p : Char → Bool} (l : List Char) (z : Char) (zs : List Char)
    (hl : ∀ c ∈ l, p c = true) (hz : p z = false) :
    (l ++ z :: zs).dropWhile p = z :: zs := by
  induction l with
  | nil => simp [List.dropWhile, hz]
  | cons a t ih =>
    have ha := hl a (by simp)
    simp only [List.cons_append, List.dropWhile_cons, ha, if_true]
    exact ih (fun c hc => hl c (by simp [hc]))

theorem takeWhile_all {p : Char → Bool} (l : List Char) (hl : ∀ c ∈ l, p c = true) :
    l.takeWhile p = l := by
  induction l with
  | nil => rfl
  | cons a t ih =>
    have ha := hl a (by simp)
    simp only [List.takeWhile_cons, ha, if_true]
    rw [ih (fun c hc => hl c (by simp [hc]))]

theorem dropWhile_all {p : Char → Bool} (l : List Char) (hl : ∀ c ∈ l, p c = true) :
    l.dropWhile p = [] := by
  induction l with
  | nil => rfl
  | cons a t ih =>
    have ha := hl a (by simp)
    simp only [List.dropWhile_cons, ha, if_true]
    exact ih (fun c hc => hl c (by simp [hc]))

/-- A fraction that consumes the whole input: either there was nothing to
consume, or the input is a separator followed by one or more digits. -/
theorem parseFracOpt_eq_nil {cs : List Char} {ns : Nat} (h : parseFracOpt cs = (ns, [])) :
    (cs = [] ∧ ns = 0) ∨
    (∃ sep d ds, cs = sep :: d :: ds ∧ commaOrPeriod sep = true ∧ d.isDigit = true ∧
      (∀ c ∈ ds, c.isDigit = true) ∧ ns = nanoVal (d :: ds)) := by
  match cs with
  | [] =>
    simp only [parseFracOpt, Prod.mk.injEq] at h
    exact Or.inl ⟨rfl, h.1.symm⟩
  | [c] =>
    simp only [parseFracOpt, Prod.mk.injEq] at h
    exact absurd h.2 (by simp)
  | c :: d :: rest =>
    by_cases hc : commaOrPeriod c = true ∧ d.isDigit = true
    · simp only [parseFracOpt, hc.1, hc.2, and_self, if_true, Prod.mk.injEq] at h
      have hall : ∀ x ∈ rest, x.isDigit = true := List.dropWhile_eq_nil_iff.mp h.2
      have htake : rest.takeWhile Char.isDigit = rest := List.takeWhile_eq_self_iff.mpr hall
      refine Or.inr ⟨c, d, rest, rfl, hc.1, hc.2, hall, ?_⟩
      rw [htake] at h
      exact h.1.symm
    · simp only [parseFracOpt, hc, if_false, Prod.mk.injEq] at h
      exact absurd h.2 (by simp)

/-- Computation rule: a separator followed by only digits is consumed
entirely. -/
theorem parseFracOpt_all {sep d : Char} {ds : List Char}
    (hsep : commaOrPeriod sep = true) (hd : d.isDigit = true)
    (hds : ∀ c ∈ ds, c.isDigit = true) :
    parseFracOpt (sep :: d :: ds) = (nanoVal (d :: ds), []) := by
  have htake : ds.takeWhile Char.isDigit = ds := List.takeWhile_eq_self_iff.mpr hds
  have hdrop : ds.dropWhile Char.isDigit = [] := List.dropWhile_eq_nil_iff.mpr hds
  simp [parseFracOpt, hsep, hd, htake, hdrop]

/-- Appending text that opens with a character that is neither a digit
nor a fraction separator leaves the consumed fraction unchanged and the
appended text as the remainder. -/
theorem parseFracOpt_append {cs : List Char} {ns : Nat} (h : parseFracOpt cs = (ns, []))
    {z : Char} (hz1 : z.isDigit = false) (hz2 : commaOrPeriod z = false) (zs : List Char) :
    parseFracOpt (cs ++ z :: zs) = (ns, z :: zs) := by
  rcases parseFracOpt_eq_nil h with ⟨rfl, rfl⟩ | ⟨sep, d, ds, rfl, hsep, hd, hds, rfl⟩
  · match zs with
    | [] => simp [parseFracOpt]
    | w :: ws => simp [parseFracOpt, hz2]
  · have htake := takeWhile_all_append (p := Char.isDigit) ds z zs hds hz1
    have hdrop := dropWhile_all_append (p := Char.isDigit) ds z zs hds hz1
    simp [parseFracOpt, hsep, hd, htake, hdrop]

theorem parseDatePart_eq_some {cs : List Char} {d : DateParts} (h : parseDatePart cs = some d) :
    ∃ ya yb yc yd ma mb da db,
      cs = ya :: yb :: yc :: yd :: '-' :: ma :: mb :: '-' :: da :: db :: 'T' :: d.rest ∧
      ya.isDigit = true ∧ yb.isDigit = true ∧ yc.isDigit = true ∧ yd.isDigit = true ∧
      ma.isDigit = true ∧ mb.isDigit = true ∧ da.isDigit = true ∧ db.isDigit = true ∧
      d.year = fourDigitVal ya yb yc yd ∧ d.month = twoDigitVal ma mb ∧
      1 ≤ d.month ∧ d.month ≤ 12 ∧ d.day = twoDigitVal da db := by
  simp only [parseDatePart, bind, Option.bind_eq_some, Option.pure_def, Option.some.injEq,
    check_eq_some] at h
  obtain ⟨py, hy, cs1, h1, pm, hm, ⟨⟨⟩, ⟨hm1, hm2⟩, cs2, h2, pd, hd, cs3, h3, hfin⟩⟩ := h
  obtain ⟨ya, yb, yc, yd, rfl, hya, hyb, hyc, hyd, hyv⟩ := getnum4_eq_some.mp hy
  rw [lit_eq_some] at h1
  obtain ⟨ma, mb, h1e, hma, hmb, hmv⟩ := getnum2_eq_some.mp hm
  rw [lit_eq_some] at h2
  obtain ⟨da, db, h2e, hda, hdb, hdv⟩ := getnum2_eq_some.mp hd
  rw [lit_eq_some] at h3
  subst hfin
  refine ⟨ya, yb, yc, yd, ma, mb, da, db, ?_, hya, hyb, hyc, hyd, hma, hmb, hda, hdb,
    hyv, hmv, ?_, ?_, hdv⟩
  · rw [h1, h1e, h2, h2e, h3]
  · simpa [hmv] using hm1
  · simpa [hmv] using hm2

theorem parseDatePart_build {ya yb yc yd ma mb da db : Char} (rest : List Char)
    (hya : ya.isDigit = true) (hyb : yb.isDigit = true) (hyc : yc.isDigit = true)
    (hyd : yd.isDigit = true) (hma : ma.isDigit = true) (hmb : mb.isDigit = true)
    (hda : da.isDigit = true) (hdb : db.isDigit = true)
    (hm1 : 1 ≤ twoDigitVal ma mb) (hm2 : twoDigitVal ma mb ≤ 12) :
    parseDatePart (ya :: yb :: yc :: yd :: '-' :: ma :: mb :: '-' :: da :: db :: 'T' :: rest) =
      some ⟨fourDigitVal ya yb yc yd, twoDigitVal ma mb, twoDigitVal da db, rest⟩ := by
  simp [parseDatePart, getnum4, getnum2, lit, check, hya, hyb, hyc, hyd, hma, hmb, hda, hdb,
    hm1, hm2]

theorem parseDatePart_append {cs : List Char} {d : DateParts} (h : parseDatePart cs = some d)
    (t : List Char) :
    parseDatePart (cs ++ t) = some ⟨d.year, d.month, d.day, d.rest ++ t⟩ := by
  obtain ⟨ya, yb, yc, yd, ma, mb, da, db, rfl, hya, hyb, hyc, hyd, hma, hmb, hda, hdb,
    hyv, hmv, hm1, hm2, hdv⟩ := parseDatePart_eq_some h
  have := parseDatePart_build (d.rest ++ t) hya hyb hyc hyd hma hmb hda hdb
    (hmv ▸ hm1) (hmv ▸ hm2)
  simpa [hyv, hmv, hdv] using this

theorem parseTimePart_eq_some {cs : List Char} {t : TimeParts} (h : parseTimePart cs = some t) :
    ∃ hl na nb sa sb,
      cs = hl ++ ':' :: na :: nb :: ':' :: sa :: sb :: t.rest ∧
      ((∃ a, hl = [a] ∧ a.isDigit = true ∧ t.hour = digitVal a) ∨
       (∃ a b, hl = [a, b] ∧ a.isDigit = true ∧ b.isDigit = true ∧ t.hour = twoDigitVal a b)) ∧
      na.isDigit = true ∧ nb.isDigit = true ∧ sa.isDigit = true ∧ sb.isDigit = true ∧
      t.minute = twoDigitVal na nb ∧ t.second = twoDigitVal sa sb ∧
      t.hour ≤ 23 ∧ t.minute ≤ 59 ∧ t.second ≤ 59 := by
  simp only [parseTimePart, bind, Option.bind_eq_some, Option.pure_def, Option.some.injEq,
    check_eq_some] at h
  obtain ⟨ph, hh, ⟨⟩, hh23, cs4, h4, pn, hn, ⟨⟩, hn59, cs5, h5, ps, hs, ⟨⟩, hs59, hfin⟩ := h
  rw [lit_eq_some] at h4
  obtain ⟨na, nb, h4e, hna, hnb, hnv⟩ := getnum2_eq_some.mp hn
  rw [lit_eq_some] at h5
  obtain ⟨sa, sb, h5e, hsa, hsb, hsv⟩ := getnum2_eq_some.mp hs
  subst hfin
  rcases getnumHour_eq_some.mp hh with ⟨a, hcs, ha, hv, _⟩ | ⟨a, b, hcs, ha, hb, hv⟩
  · refine ⟨[a], na, nb, sa, sb, ?_, Or.inl ⟨a, rfl, ha, hv⟩, hna, hnb, hsa, hsb, hnv, hsv,
      ?_, ?_, ?_⟩
    · rw [hcs, h4, h4e, h5, h5e]
      rfl
    · simpa [hv] using hh23
    · simpa [hnv] using hn59
    · simpa [hsv] using hs59
  · refine ⟨[a, b], na, nb, sa, sb, ?_, Or.inr ⟨a, b, rfl, ha, hb, hv⟩, hna, hnb, hsa, hsb,
      hnv, hsv, ?_, ?_, ?_⟩
    · rw [hcs, h4, h4e, h5, h5e]
      rfl
    · simpa [hv] using hh23
    · simpa [hnv] using hn59
    · simpa [hsv] using hs59

theorem parseTimePart_build1 {a na nb sa sb : Char} (rest : List Char)
    (ha : a.isDigit = true) (hna : na.isDigit = true) (hnb : nb.isDigit = true)
    (hsa : sa.isDigit = true) (hsb : sb.isDigit = true)
    (hh : digitVal a ≤ 23) (hn : twoDigitVal na nb ≤ 59) (hs : twoDigitVal sa sb ≤ 59) :
    parseTimePart (a :: ':' :: na :: nb :: ':' :: sa :: sb :: rest) =
      some ⟨digitVal a, twoDigitVal na nb, twoDigitVal sa sb, rest⟩ := by
  simp [parseTimePart, getnumHour, getnum2, lit, check, ha, hna, hnb, hsa, hsb, hh, hn, hs]

theorem parseTimePart_build2 {a b na nb sa sb : Char} (rest : List Char)
    (ha : a.isDigit = true) (hb : b.isDigit = true)
    (hna : na.isDigit = true) (hnb : nb.isDigit = true)
    (hsa : sa.isDigit = true) (hsb : sb.isDigit = true)
    (hh : twoDigitVal a b ≤ 23) (hn : twoDigitVal na nb ≤ 59) (hs : twoDigitVal sa sb ≤ 59) :
    parseTimePart (a :: b :: ':' :: na :: nb :: ':' :: sa :: sb :: rest) =
      some ⟨twoDigitVal a b, twoDigitVal na nb, twoDigitVal sa sb, rest⟩ := by
  simp [parseTimePart, getnumHour, getnum2, lit, check, ha, hb, hna, hnb, hsa, hsb, hh, hn, hs]

theorem parseTimePart_append {cs : List Char} {t : TimeParts} (h : parseTimePart cs = some t)
    (tl : List Char) :
    parseTimePart (cs ++ tl) = some ⟨t.hour, t.minute, t.second, t.rest ++ tl⟩ := by
  obtain ⟨hl, na, nb, sa, sb, rfl, hhl, hna, hnb, hsa, hsb, hnv, hsv, hh23, hn59, hs59⟩ :=
    parseTimePart_eq_some h
  rcases hhl with ⟨a, rfl, ha, hv⟩ | ⟨a, b, rfl, ha, hb, hv⟩
  · have := parseTimePart_build1 (t.rest ++ tl) ha hna hnb hsa hsb
      (hv ▸ hh23) (hnv ▸ hn59) (hsv ▸ hs59)
    simpa [hv, hnv, hsv] using this
  · have := parseTimePart_build2 (t.rest ++ tl) ha hb hna hnb hsa hsb
      (hv ▸ hh23) (hnv ▸ hn59) (hsv ▸ hs59)
    simpa [hv, hnv, hsv] using this

/-! ### The success set of the parser, as a shape predicate -/

/-- The hour chunk: one digit (only when what follows is not a digit,
which the surrounding colon guarantees) or two digits. -/
def HourChars (hl : List Char) (v : Nat) : Prop :=
  (∃ a, hl = [a] ∧ a.isDigit = true ∧ v = digitVal a) ∨
  (∃ a b, hl = [a, b] ∧ a.isDigit = true ∧ b.isDigit = true ∧ v = twoDigitVal a b)

/-- The fraction chunk: absent, or a period or comma followed by one or
more digits reaching the end of the string. -/
def FracChars (fr : List Char) (ns : Nat) : Prop :=
  (fr = [] ∧ ns = 0) ∨
  (∃ sep d ds, fr = sep :: d :: ds ∧ commaOrPeriod sep = true ∧ d.isDigit = true ∧
    (∀ c ∈ ds, c.isDigit = true) ∧ ns = nanoVal (d :: ds))

/-- The exact set of strings accepted by `parse2006`, together with the
fields of the value parsed: four-digit year, two-digit month, day, minute
and second, one- or two-digit hour, optional comma- or period-led
fraction, nothing after the fraction, and all fields within range. -/
def amendedShape (cs : List Char) (dt : GoDateTime) : Prop :=
  ∃ ya yb yc yd ma mb da db hl na nb sa sb fr,
    cs = ya :: yb :: yc :: yd :: '-' :: ma :: mb :: '-' :: da :: db :: 'T' ::
      (hl ++ ':' :: na :: nb :: ':' :: sa :: sb :: fr) ∧
    ya.isDigit = true ∧ yb.isDigit = true ∧ yc.isDigit = true ∧ yd.isDigit = true ∧
    ma.isDigit = true ∧ mb.isDigit = true ∧ da.isDigit = true ∧ db.isDigit = true ∧
    na.isDigit = true ∧ nb.isDigit = true ∧ sa.isDigit = true ∧ sb.isDigit = true ∧
    HourChars hl dt.hour ∧ FracChars fr dt.nanosecond ∧
    dt.year = fourDigitVal ya yb yc yd ∧
    dt.month = twoDigitVal ma mb ∧ 1 ≤ dt.month ∧ dt.month ≤ 12 ∧
    dt.day = twoDigitVal da db ∧ 1 ≤ dt.day ∧ dt.day ≤ daysIn dt.month dt.year ∧
    dt.minute = twoDigitVal na nb ∧ dt.minute ≤ 59 ∧
    dt.second = twoDigitVal sa sb ∧ dt.second ≤ 59 ∧
    dt.hour ≤ 23

theorem parse2006_eq_some_iff {cs : List Char} {dt : GoDateTime} :
    parse2006 cs = some dt ↔ amendedShape cs dt := by
  constructor
  · intro h
    simp only [parse2006, bind, Option.bind_eq_some, Option.pure_def, Option.some.injEq,
      check_eq_some] at h
    obtain ⟨d, hdate, t, htime, ⟨⟩, hfr, ⟨⟩, ⟨hd1, hd2⟩, hfin⟩ := h
    have hfrac : parseFracOpt t.rest = ((parseFracOpt t.rest).1, []) := by
      rw [← hfr]
    obtain ⟨ya, yb, yc, yd, ma, mb, da, db, hcse, hya, hyb, hyc, hyd, hma, hmb, hda, hdb,
      hyv, hmv, hm1, hm2, hdv⟩ := parseDatePart_eq_some hdate
    obtain ⟨hl, na, nb, sa, sb, hrest, hhl, hna, hnb, hsa, hsb, hnv, hsv, hh23, hn59, hs59⟩ :=
      parseTimePart_eq_some htime
    subst hfin
    refine ⟨ya, yb, yc, yd, ma, mb, da, db, hl, na, nb, sa, sb, t.rest, ?_,
      hya, hyb, hyc, hyd, hma, hmb, hda, hdb, hna, hnb, hsa, hsb, ?_, ?_,
      hyv, hmv, hm1, hm2, hdv, hd1, hd2, hnv, hn59, hsv, hs59, hh23⟩
    · rw [hcse, hrest]
    · exact hhl
    · rcases parseFracOpt_eq_nil hfrac with ⟨he, hns⟩ | ⟨sep, dd, ds, he, hsep, hdd, hds, hns⟩
      · exact Or.inl ⟨he, by simpa using hns⟩
      · exact Or.inr ⟨sep, dd, ds, he, hsep, hdd, hds, by simpa using hns⟩
  · rintro ⟨ya, yb, yc, yd, ma, mb, da, db, hl, na, nb, sa, sb, fr, hcs,
      hya, hyb, hyc, hyd, hma, hmb, hda, hdb, hna, hnb, hsa, hsb, hhl, hfr,
      hyv, hmv, hm1, hm2, hdv, hd1, hd2, hnv, hn59, hsv, hs59, hh23⟩
    have hdate : parseDatePart cs =
        some ⟨dt.year, dt.month, dt.day, hl ++ ':' :: na :: nb :: ':' :: sa :: sb :: fr⟩ := by
      rw [hcs, hyv, hmv, hdv]
      exact parseDatePart_build _ hya hyb hyc hyd hma hmb hda hdb
        (hmv ▸ hm1) (hmv ▸ hm2)
    have htime : parseTimePart (hl ++ ':' :: na :: nb :: ':' :: sa :: sb :: fr) =
        some ⟨dt.hour, dt.minute, dt.second, fr⟩ := by
      rcases hhl with ⟨a, rfl, ha, hv⟩ | ⟨a, b, rfl, ha, hb, hv⟩
      · rw [hv, hnv, hsv]
        exact parseTimePart_build1 _ ha hna hnb hsa hsb
          (hv ▸ hh23) (hnv ▸ hn59) (hsv ▸ hs59)
      · rw [hv, hnv, hsv]
        exact parseTimePart_build2 _ ha hb hna hnb hsa hsb
          (hv ▸ hh23) (hnv ▸ hn59) (hsv ▸ hs59)
    have hfrac : parseFracOpt fr = (dt.nanosecond, []) := by
      rcases hfr with ⟨rfl, hns⟩ | ⟨sep, dd, ds, rfl, hsep, hdd, hds, hns⟩
      · rw [hns]
        rfl
      · rw [hns]
        exact parseFracOpt_all hsep hdd hds
    simp [parse2006, hdate, htime, hfrac, check, hd1, hd2]

/-- Appending text opening with a non-digit, non-separator character to
an accepted string makes the parse fail on the extra text. -/
theorem parse2006_append_none {cs : List Char} {dt : GoDateTime}
    (h : parse2006 cs = some dt) {z : Char}
    (hz1 : z.isDigit = false) (hz2 : commaOrPeriod z = false) (zs : List Char) :
    parse2006 (cs ++ z :: zs) = none := by
  simp only [parse2006, bind, Option.bind_eq_some, Option.pure_def, Option.some.injEq,
    check_eq_some] at h
  obtain ⟨d, hdate, t, htime, ⟨⟩, hfr, ⟨⟩, ⟨hd1, hd2⟩, hfin⟩ := h
  have hfrac : parseFracOpt t.rest = ((parseFracOpt t.rest).1, []) := by
    rw [← hfr]
  have hdate2 := parseDatePart_append hdate (z :: zs)
  have htime2 := parseTimePart_append htime (z :: zs)
  have hfrac2 := parseFracOpt_append hfrac hz1 hz2 zs
  simp [parse2006, hdate2, htime2, hfrac2, check]

/-- Claim C10, amended: `ConvertToLocalTime` succeeds exactly on the
strings of the layout shape with a one- or two-digit hour, a period- or
comma-led optional fraction and in-range fields, returning exactly the
parsed instant; and appending a timezone designator (any text opening
with a character that is neither a digit nor a fraction separator, such
as Z, + or -) to an accepted string yields the zero time and an error. -/
theorem C10_theorem :
    (∀ (s : String) (dt : GoDateTime),
      ConvertToLocalTime s = some dt ↔ amendedShape s.data dt) ∧
    (∀ (s : String) (dt : GoDateTime) (z : Char) (zs : List Char),
      z.isDigit = false → commaOrPeriod z = false →
      ConvertToLocalTime s = some dt →
      ConvertToLocalTime (s ++ String.mk (z :: zs)) = none) := by
  constructor
  · intro s dt
    exact parse2006_eq_some_iff
  · intro s dt z zs hz1 hz2 h
    show parse2006 (s ++ String.mk (z :: zs)).data = none
    have hd : (s ++ String.mk (z :: zs)).data = s.data ++ z :: zs := rfl
    rw [hd]
    exact parse2006_append_none h hz1 hz2 zs

/-- Claim C10, witness: the amended characterisation instantiated on an
accepted timestamp with fraction, and the rejection of a Z suffix and a
numeric-offset suffix on an accepted timestamp. -/
theorem C10_witness :
    amendedShape ("2024-01-02T15:04:05.1").data ⟨2024, 1, 2, 15, 4, 5, 100000000⟩ ∧
    ConvertToLocalTime ("2024-01-02T15:04:05" ++ String.mk ['Z']) = none ∧
    ConvertToLocalTime ("2024-01-02T15:04:05" ++ String.mk ['+', '1', '0', ':', '0', '0']) =
      none := by
  refine ⟨?_, ?_, ?_⟩
  · exact (C10_theorem.1 ("2024-01-02T15:04:05.1") ⟨2024, 1, 2, 15, 4, 5, 100000000⟩).mp
      (by decide)
  · exact C10_theorem.2 ("2024-01-02T15:04:05") ⟨2024, 1, 2, 15, 4, 5, 0⟩ 'Z' []
      (by decide) (by decide) (by decide)
  · exact C10_theorem.2 ("2024-01-02T15:04:05") ⟨2024, 1, 2, 15, 4, 5, 0⟩ '+'
      ['1', '0', ':', '0', '0'] (by decide) (by decide) (by decide)
